import Mathlib

/-!
Verification development for the configuration-compilation and hot-reload
subsystem of prometheus-dingtalk-hook.

The Go sources are shallowly embedded: pure functions are translated into
Lean functions over `List`/`String`/`Int`; filesystem reads, YAML
unmarshalling and `text/template` parsing (external libraries) are
abstracted as explicit oracle inputs; the SHA-256 digest used for reload
fingerprints is modelled by the exact byte sequence fed to the hash
(SHA-256 is deterministic, so equal inputs give equal digests; the spec's
"equal iff unchanged" invariant is the usual collision-freeness reading,
which is faithfully captured at the preimage level).

A few symbols of the repository are referenced from the embedded packages
but their defining files are not part of the provided sources (the
`internal/router` and `internal/alertmanager` packages and the runtime
`Store`); each such definition is modelled from the spec and marked
accordingly in its doc comment.
-/

namespace PDTH

/-- Character class of Go's `unicode.IsSpace` (the full Unicode
White_Space set), used by `strings.TrimSpace`. -/
def goIsSpace (c : Char) : Bool :=
  c.toNat == 9 || c.toNat == 10 || c.toNat == 11 || c.toNat == 12 ||
  c.toNat == 13 || c.toNat == 32 || c.toNat == 0x85 || c.toNat == 0xA0 ||
  c.toNat == 0x1680 || (0x2000 ≤ c.toNat && c.toNat ≤ 0x200A) ||
  c.toNat == 0x2028 || c.toNat == 0x2029 || c.toNat == 0x202F ||
  c.toNat == 0x205F || c.toNat == 0x3000

/-- Trim white space from both ends of a character list. -/
def goTrimSpaceList (l : List Char) : List Char :=
  ((l.dropWhile goIsSpace).reverse.dropWhile goIsSpace).reverse

/-- Embedding of Go `strings.TrimSpace`. -/
def goTrimSpace (s : String) : String :=
  String.mk (goTrimSpaceList s.data)

/-- Embedding of Go `strings.TrimPrefix(s, "@")`: drop one leading `@`. -/
def dropLeadingAt (s : String) : String :=
  match s.data with
  | '@' :: rest => String.mk rest
  | _ => s

/-- The per-identifier cleanup performed inside `normalizeMention`:
`v = strings.TrimSpace(v); v = strings.TrimPrefix(v, "@")`. -/
def cleanId (s : String) : String :=
  dropLeadingAt (goTrimSpace s)

/-- Embedding of `config.MentionConfig` (internal/config). -/
structure MentionConfig where
  atAll : Bool
  atMobiles : List String
  atUserIds : List String
deriving Repr, DecidableEq

/-- The seen-set loop of `normalizeMention` (internal/runtime): clean each
identifier, drop empties, drop identifiers already emitted. -/
def normalizeIdsLoop (seen out : List String) : List String → List String
  | [] => out
  | v :: rest =>
    let w := cleanId v
    if w = "" then normalizeIdsLoop seen out rest
    else if seen.contains w then normalizeIdsLoop seen out rest
    else normalizeIdsLoop (w :: seen) (out ++ [w]) rest

/-- One identifier list as normalized by `normalizeMention`. -/
def normalizeIds (l : List String) : List String :=
  normalizeIdsLoop [] [] l

/-- Embedding of `normalizeMention` (internal/runtime): when `AtAll` is set
both lists are cleared, otherwise each list is cleaned and deduplicated. -/
def normalizeMention (m : MentionConfig) : MentionConfig :=
  if m.atAll then
    { m with atMobiles := [], atUserIds := [] }
  else
    { m with
      atUserIds := normalizeIds m.atUserIds,
      atMobiles := normalizeIds m.atMobiles }

/-- Specification-side formulation of first-occurrence deduplication: keep
an element and remove its later duplicates. -/
def dedupKeepFirst : List String → List String
  | [] => []
  | x :: xs => x :: dedupKeepFirst (xs.filter (fun y => !(y == x)))
termination_by l => l.length
decreasing_by
  simp only [List.length_cons]
  exact Nat.lt_succ_of_le (List.length_filter_le _ _)

/-- Specification-side description of one normalized identifier list:
clean every identifier, drop the blanks, deduplicate keeping the first
occurrence. -/
def normalizeIdsSpec (l : List String) : List String :=
  dedupKeepFirst ((l.map cleanId).filter (fun w => !(w == "")))

/-- Embedding of `config.WhenConfig`: optional allow lists per dimension;
the Go `map[string][]string` of label constraints is carried as an
association list. -/
structure WhenConfig where
  receiver : List String
  status : List String
  labels : List (String × List String)
deriving Repr, DecidableEq

/-- Modelled from the spec: the `alertmanager.WebhookMessage` fields the
route/mention predicates read (the alertmanager package is not among the
provided sources).  Labels are the message's label view as an association
list. -/
structure WebhookMessage where
  receiver : String
  status : String
  labels : List (String × String)
deriving Repr, DecidableEq

/-- One allow-list dimension: an empty list matches unconditionally,
otherwise the value must be one of the listed ones. -/
def dimMatches (allowed : List String) (v : String) : Bool :=
  allowed.isEmpty || allowed.contains v

/-- Modelled from the spec: `router` match predicate semantics (the
`internal/router` package is not among the provided sources).  Declared
dimensions are AND-combined; within a dimension the list is OR-combined;
an empty or absent dimension matches unconditionally. -/
def WhenConfig.Match (w : WhenConfig) (msg : WebhookMessage) : Bool :=
  dimMatches w.receiver msg.receiver &&
  dimMatches w.status msg.status &&
  w.labels.all (fun kv =>
    kv.2.isEmpty ||
    match msg.labels.lookup kv.1 with
    | some v => kv.2.contains v
    | none => false)

/-- Modelled from the spec: `router.MergeMention` performs a field-level
merge of an override rule's mention fields into the running result —
a set `at_all` flag is kept, and a non-empty list replaces the running
list while an empty one leaves it untouched (the `internal/router`
package is not among the provided sources). -/
def MergeMention (base ov : MentionConfig) : MentionConfig :=
  { atAll := base.atAll || ov.atAll,
    atMobiles := if ov.atMobiles.isEmpty then base.atMobiles else ov.atMobiles,
    atUserIds := if ov.atUserIds.isEmpty then base.atUserIds else ov.atUserIds }

/-- Embedding of `router.MentionRule` as used by `internal/runtime`: a
match predicate together with the mention fields to merge. -/
structure MentionRule where
  name : String
  whenCfg : WhenConfig
  mention : MentionConfig
deriving Repr, DecidableEq

/-- Embedding of `config.RobotConfig`. -/
structure RobotConfig where
  name : String
  webhook : String
  secret : String
  msgType : String
  title : String
deriving Repr, DecidableEq

/-- Embedding of `runtime.Channel`. -/
structure Channel where
  name : String
  robots : List RobotConfig
  template : String
  mention : MentionConfig
  mentionRules : List MentionRule
deriving Repr, DecidableEq

/-- Embedding of `Channel.EffectiveMention` (internal/runtime): start from
the channel's base mention, merge every matching rule's mention in
declared order, and normalize the final result. -/
def Channel.EffectiveMention (c : Channel) (msg : WebhookMessage) : MentionConfig :=
  normalizeMention
    (c.mentionRules.foldl
      (fun out rule => if rule.whenCfg.Match msg then MergeMention out rule.mention else out)
      c.mention)

/-- Go `time.Duration` (nanoseconds). -/
abbrev GoDuration := Int

/-- Embedding of `config.ServerConfig`. -/
structure ServerConfig where
  listen : String
  path : String
  readTimeout : GoDuration
  writeTimeout : GoDuration
  idleTimeout : GoDuration
  maxBodyBytes : Int
deriving Repr, DecidableEq

/-- Embedding of `config.AuthConfig`. -/
structure AuthConfig where
  token : String
deriving Repr, DecidableEq

/-- Embedding of `config.BasicAuthConfig`. -/
structure BasicAuthConfig where
  username : String
  password : String
  passwordSHA256 : String
  salt : String
deriving Repr, DecidableEq

/-- Embedding of `config.AdminConfig`. -/
structure AdminConfig where
  enabled : Bool
  pathPrefix : String
  basicAuth : BasicAuthConfig
deriving Repr, DecidableEq

/-- Embedding of `config.ReloadConfig`. -/
structure ReloadConfig where
  enabled : Bool
  interval : GoDuration
deriving Repr, DecidableEq

/-- Embedding of `config.TemplateConfig`. -/
structure TemplateConfig where
  dir : String
deriving Repr, DecidableEq

/-- Embedding of `config.MentionRuleConfig`. -/
structure MentionRuleConfig where
  name : String
  whenCfg : WhenConfig
  mention : MentionConfig
deriving Repr, DecidableEq

/-- Embedding of `config.ChannelConfig`. -/
structure ChannelConfig where
  name : String
  robots : List String
  template : String
  mention : MentionConfig
  mentionRules : List MentionRuleConfig
deriving Repr, DecidableEq

/-- Embedding of `config.RouteConfig`. -/
structure RouteConfig where
  name : String
  whenCfg : WhenConfig
  channels : List String
deriving Repr, DecidableEq

/-- Embedding of `config.DingTalkConfig`. -/
structure DingTalkConfig where
  timeout : GoDuration
  robots : List RobotConfig
  channels : List ChannelConfig
  routes : List RouteConfig
deriving Repr, DecidableEq

/-- Embedding of `config.Config`. -/
structure Config where
  server : ServerConfig
  auth : AuthConfig
  admin : AdminConfig
  reload : ReloadConfig
  template : TemplateConfig
  dingtalk : DingTalkConfig
deriving Repr, DecidableEq

/-- Embedding of `config.applyDefaults`. -/
def applyDefaults (cfg : Config) : Config :=
  let s := cfg.server
  let s := { s with listen := if s.listen = "" then "0.0.0.0:8080" else s.listen }
  let s := { s with path := if s.path = "" then "/alert" else s.path }
  let s := { s with readTimeout := if s.readTimeout = 0 then 5000000000 else s.readTimeout }
  let s := { s with writeTimeout := if s.writeTimeout = 0 then 10000000000 else s.writeTimeout }
  let s := { s with idleTimeout := if s.idleTimeout = 0 then 60000000000 else s.idleTimeout }
  let s := { s with maxBodyBytes := if s.maxBodyBytes = 0 then 4194304 else s.maxBodyBytes }
  let a := { cfg.admin with
             pathPrefix := if cfg.admin.pathPrefix = "" then "/admin" else cfg.admin.pathPrefix }
  let r := { cfg.reload with
             interval := if cfg.reload.interval = 0 then 2000000000 else cfg.reload.interval }
  let d := { cfg.dingtalk with
             timeout := if cfg.dingtalk.timeout = 0 then 5000000000 else cfg.dingtalk.timeout,
             robots := cfg.dingtalk.robots.map
               (fun rb => { rb with msgType := if rb.msgType = "" then "markdown" else rb.msgType }) }
  { cfg with server := s, admin := a, reload := r, dingtalk := d }

/-- Go `"/" + s` when `s` lacks a leading slash (the path normalization at
the top of `config.validate`). -/
def ensureLeadingSlash (s : String) : String :=
  match s.data with
  | '/' :: _ => s
  | _ => String.mk ('/' :: s.data)

/-- ASCII hexadecimal digit, as accepted by Go `encoding/hex`. -/
def isHexDigit (c : Char) : Bool :=
  ('0' ≤ c && c ≤ '9') || ('a' ≤ c && c ≤ 'f') || ('A' ≤ c && c ≤ 'F')

/-- Success predicate of Go `hex.DecodeString`: even length, all hex
digits. -/
def hexDecodeOk (s : String) : Bool :=
  decide (s.data.length % 2 = 0) && s.data.all isHexDigit

/-- Characters of the standard base64 alphabet (without padding). -/
def b64Char (c : Char) : Bool :=
  ('A' ≤ c && c ≤ 'Z') || ('a' ≤ c && c ≤ 'z') || ('0' ≤ c && c ≤ '9') ||
  c == '+' || c == '/'

/-- Structural validity of padded standard base64, block by block. -/
def b64BlocksOk : List Char → Bool
  | [] => true
  | a :: b :: c :: d :: rest =>
    if rest.isEmpty then
      b64Char a && b64Char b &&
      ((b64Char c && b64Char d) || (b64Char c && d == '=') || (c == '=' && d == '='))
    else
      b64Char a && b64Char b && b64Char c && b64Char d && b64BlocksOk rest
  | _ => false

/-- Success predicate of Go `base64.StdEncoding.DecodeString` (which skips
newline characters before decoding). -/
def base64StdOk (s : String) : Bool :=
  b64BlocksOk (s.data.filter (fun c => c != '\r' && c != '\n'))

/-- ASCII letter or digit. -/
def isASCIIAlnum (c : Char) : Bool :=
  ('a' ≤ c && c ≤ 'z') || ('A' ≤ c && c ≤ 'Z') || ('0' ≤ c && c ≤ '9')

/-- Character class of the tail of `config.templateNameRE`. -/
def validTemplateNameChar (c : Char) : Bool :=
  isASCIIAlnum c || c == '.' || c == '_' || c == '-'

/-- Embedding of `config.ValidTemplateName`, the anchored regular
expression match of `^[a-zA-Z0-9][a-zA-Z0-9._-]\x7b0,127\x7d$`. -/
def ValidTemplateName (s : String) : Bool :=
  match s.data with
  | [] => false
  | c :: rest =>
    isASCIIAlnum c && decide (rest.length ≤ 127) && rest.all validTemplateNameChar

/-- Admin section checks of `config.validate`. -/
def validateAdmin (a : AdminConfig) : Except String Unit :=
  if !a.enabled then .ok ()
  else if goTrimSpace a.basicAuth.username = "" then
    .error "admin.basic_auth.username must not be empty"
  else if goTrimSpace a.basicAuth.password = "" ∧ goTrimSpace a.basicAuth.passwordSHA256 = "" then
    .error "admin.basic_auth.password or admin.basic_auth.password_sha256 is required"
  else if goTrimSpace a.basicAuth.password ≠ "" ∧ goTrimSpace a.basicAuth.passwordSHA256 ≠ "" then
    .error "admin.basic_auth.password and admin.basic_auth.password_sha256 are mutually exclusive"
  else if goTrimSpace a.basicAuth.passwordSHA256 ≠ "" then
    let sha := goTrimSpace a.basicAuth.passwordSHA256
    if sha.data.length ≠ 64 then
      .error "admin.basic_auth.password_sha256 must be 64 hex chars"
    else if !hexDecodeOk sha then
      .error "admin.basic_auth.password_sha256 must be hex"
    else if goTrimSpace a.basicAuth.salt = "" then
      .error "admin.basic_auth.salt is required when password_sha256 is set"
    else if !base64StdOk (goTrimSpace a.basicAuth.salt) then
      .error "admin.basic_auth.salt must be base64"
    else .ok ()
  else .ok ()

/-- Robot loop of `config.validate`: empty or duplicate names, empty
webhook, and unknown message kind are fatal.  Note the source performs no
URL parsing and no scheme or host check on the webhook. -/
def validateRobotList (seen : List String) : List RobotConfig → Except String Unit
  | [] => .ok ()
  | r :: rest =>
    let name := goTrimSpace r.name
    if name = "" then .error "dingtalk.robots[].name must not be empty"
    else if seen.contains name then
      .error ("dingtalk.robots has duplicate name " ++ name)
    else if goTrimSpace r.webhook = "" then
      .error ("dingtalk.robots[" ++ name ++ "].webhook must not be empty")
    else
      let msgType := goTrimSpace r.msgType
      if msgType ≠ "markdown" ∧ msgType ≠ "text" then
        .error ("dingtalk.robots[" ++ name ++ "].msg_type must be markdown or text")
      else validateRobotList (name :: seen) rest

/-- Robot references of one channel, checked against the robot name set. -/
def validateChannelRobotRefs (chName : String) (robotNames : List String) :
    List String → Except String Unit
  | [] => .ok ()
  | r :: rest =>
    if robotNames.contains r then validateChannelRobotRefs chName robotNames rest
    else .error ("dingtalk.channels[" ++ chName ++ "] references unknown robot " ++ r)

/-- Channel loop of `config.validate`. -/
def validateChannelList (robotNames : List String) (seen : List String) :
    List ChannelConfig → Except String Unit
  | [] => .ok ()
  | ch :: rest =>
    let name := goTrimSpace ch.name
    if name = "" then .error "dingtalk.channels[].name must not be empty"
    else if seen.contains name then
      .error ("dingtalk.channels has duplicate name " ++ name)
    else if ch.robots.isEmpty then
      .error ("dingtalk.channels[" ++ name ++ "].robots must not be empty")
    else do
      validateChannelRobotRefs name robotNames ch.robots
      validateChannelList robotNames (name :: seen) rest

/-- Channel references of one route, checked against the channel name
set. -/
def validateRouteChannelRefs (routeName : String) (channelNames : List String) :
    List String → Except String Unit
  | [] => .ok ()
  | ch :: rest =>
    if channelNames.contains ch then validateRouteChannelRefs routeName channelNames rest
    else .error ("dingtalk.routes[" ++ routeName ++ "] references unknown channel " ++ ch)

/-- Route loop of `config.validate`. -/
def validateRouteList (channelNames : List String) : List RouteConfig → Except String Unit
  | [] => .ok ()
  | route :: rest =>
    let routeName := goTrimSpace route.name
    if routeName = "" then .error "dingtalk.routes[].name must not be empty"
    else if route.channels.isEmpty then
      .error ("dingtalk.routes[" ++ routeName ++ "].channels must not be empty")
    else do
      validateRouteChannelRefs routeName channelNames route.channels
      validateRouteList channelNames rest

/-- Embedding of `config.validate`: normalizes leading slashes, then
checks the admin, robot, channel and route sections in order; returns the
(possibly path-normalized) configuration on success. -/
def validate (cfg0 : Config) : Except String Config := do
  let cfg := { cfg0 with server := { cfg0.server with path := ensureLeadingSlash cfg0.server.path } }
  let cfg :=
    if cfg.admin.pathPrefix ≠ "" then
      { cfg with admin := { cfg.admin with pathPrefix := ensureLeadingSlash cfg.admin.pathPrefix } }
    else cfg
  validateAdmin cfg.admin
  if cfg.dingtalk.robots.isEmpty then
    throw "dingtalk.robots must not be empty"
  validateRobotList [] cfg.dingtalk.robots
  let robotNames := cfg.dingtalk.robots.map (fun r => goTrimSpace r.name)
  if cfg.dingtalk.channels.isEmpty then
    throw "dingtalk.channels must not be empty (must include name default)"
  validateChannelList robotNames [] cfg.dingtalk.channels
  let channelNames := cfg.dingtalk.channels.map (fun ch => goTrimSpace ch.name)
  if !channelNames.contains "default" then
    throw "dingtalk.channels.default is required"
  validateRouteList channelNames cfg.dingtalk.routes
  return cfg

/-- Go `filepath.IsAbs` on Unix: a leading slash. -/
def goIsAbs (s : String) : Bool :=
  match s.data with
  | '/' :: _ => true
  | _ => false

/-- Embedding of `config.Parse`, with the external YAML unmarshaller and
`filepath.Join` passed in as oracles: unmarshal, apply defaults, validate,
then resolve a relative template directory against the base directory. -/
def configParse (joinPath : String → String → String)
    (unmarshal : Except String Config) (baseDir : String) : Except String Config := do
  let cfg ←
    match unmarshal with
    | .error e => .error ("parse yaml: " ++ e)
    | .ok c => pure c
  let cfg := applyDefaults cfg
  let cfg ← validate cfg
  let cfg :=
    if goTrimSpace cfg.template.dir ≠ "" ∧ goIsAbs cfg.template.dir = false then
      { cfg with template := { dir := joinPath baseDir cfg.template.dir } }
    else cfg
  return cfg

/-- External inputs of `config.Load` for a fixed configuration path: the
file read, the YAML unmarshaller, path joining, and the path's directory. -/
structure LoadEnv where
  readFile : Except String String
  unmarshal : String → Except String Config
  joinPath : String → String → String
  baseDir : String

/-- Embedding of `config.Load`. -/
def configLoad (path : String) (env : LoadEnv) : Except String Config :=
  if goTrimSpace path = "" then .error "config path is empty"
  else
    match env.readFile with
    | .error e => .error ("read config: " ++ e)
    | .ok data => configParse env.joinPath (env.unmarshal data) env.baseDir

/-- Embedding of `template.Renderer`: compiled template bodies are opaque
(they are `text/template` values), so the renderer is carried as its
default name together with the set of registered template names. -/
structure Renderer where
  defaultName : String
  templates : List String
deriving Repr, DecidableEq

/-- Embedding of `Renderer.HasTemplate`. -/
def Renderer.HasTemplate (r : Renderer) (name : String) : Bool :=
  r.templates.contains name

/-- Decidable equality of `Except` results, for evaluating witnesses. -/
instance exceptDecEq {ε α : Type} [DecidableEq ε] [DecidableEq α] :
    DecidableEq (Except ε α) := fun a b =>
  match a, b with
  | .ok x, .ok y =>
    if h : x = y then .isTrue (by rw [h]) else .isFalse (by intro hc; cases hc; exact h rfl)
  | .error x, .error y =>
    if h : x = y then .isTrue (by rw [h]) else .isFalse (by intro hc; cases hc; exact h rfl)
  | .ok _, .error _ => .isFalse (by intro hc; cases hc)
  | .error _, .ok _ => .isFalse (by intro hc; cases hc)

/-- One directory entry as seen by `os.ReadDir`, together with the result
a subsequent `os.ReadFile` on it would give. -/
structure DirEntry where
  name : String
  isDir : Bool
  content : Except String String
deriving Repr, DecidableEq

/-- Result of `os.ReadDir` on the configured template directory. -/
inductive DirRead where
  | notExist
  | failure (msg : String)
  | entries (es : List DirEntry)
deriving Repr, DecidableEq

/-- External inputs of `template.NewRenderer`: the embedded default
template text, the success predicate of `text/template` parsing (with the
fixed helper function set), and the directory read. -/
structure RenderFS where
  embeddedText : String
  parseOk : String → Bool
  dirRead : DirRead

/-- Go map insertion on the registered template name set
(`dst[name] = parsed` keeps one entry per name). -/
def insertName (dst : List String) (name : String) : List String :=
  if dst.contains name then dst else dst ++ [name]

/-- Embedding of `template.loadTemplateText` at the level of the
registered name set. -/
def loadTemplateText (parseOk : String → Bool) (dst : List String)
    (name tplText : String) : Except String (List String) :=
  if goTrimSpace name = "" then .error "template name is empty"
  else if parseOk tplText then .ok (insertName dst name)
  else .error ("parse template " ++ name)

/-- Go `filepath.Ext(name) == ".tmpl"`: the name ends in `.tmpl` (the dot
inside the suffix is then necessarily the last dot of the name). -/
def hasTmplExt (name : String) : Bool :=
  name.data.reverse.take 5 == ['l', 'p', 'm', 't', '.']

/-- Go `strings.TrimSuffix(name, ".tmpl")` for names with the `.tmpl`
extension. -/
def tmplBase (name : String) : String :=
  String.mk (name.data.take (name.data.length - 5))

/-- The entry loop of `template.NewRenderer`: skip directories, files
without the `.tmpl` extension and unsafe base names; a file read error is
fatal; each surviving file is compiled under its base name. -/
def loadDirEntries (parseOk : String → Bool) (dst : List String) :
    List DirEntry → Except String (List String)
  | [] => .ok dst
  | e :: rest =>
    if e.isDir then loadDirEntries parseOk dst rest
    else if !hasTmplExt e.name then loadDirEntries parseOk dst rest
    else
      let base := tmplBase e.name
      if !ValidTemplateName base then loadDirEntries parseOk dst rest
      else
        match e.content with
        | .error err => .error ("read template: " ++ err)
        | .ok data =>
          match loadTemplateText parseOk dst base data with
          | .error err => .error err
          | .ok dst2 => loadDirEntries parseOk dst2 rest

/-- Embedding of `template.NewRenderer`: always compiles the embedded
default template; a configured directory is scanned, where a missing
directory is tolerated and any other read error is fatal; finally the
fallback name must be registered. -/
def NewRenderer (fs : RenderFS) (cfgDir : String) : Except String Renderer := do
  let templates0 ← loadTemplateText fs.parseOk [] "default" fs.embeddedText
  let templates ←
    if goTrimSpace cfgDir ≠ "" then
      match fs.dirRead with
      | .notExist => pure templates0
      | .failure e => .error ("read template dir: " ++ e)
      | .entries es => loadDirEntries fs.parseOk templates0 es
    else pure templates0
  if !templates.contains "default" then
    throw "default template default not found"
  return { defaultName := "default", templates := templates }

/-- Association-list lookup, the read side of a Go map. -/
def assocLookup (l : List (String × α)) (k : String) : Option α :=
  (l.find? (fun p => p.1 == k)).map (fun p => p.2)

/-- Association-list insertion with replacement, the write side of a Go
map. -/
def upsertAssoc (l : List (String × α)) (k : String) (v : α) : List (String × α) :=
  if l.any (fun p => p.1 == k) then
    l.map (fun p => if p.1 == k then (k, v) else p)
  else l ++ [(k, v)]

/-- Embedding of `config.DingTalkConfig.RobotsByName` (keys are the raw,
untrimmed robot names). -/
def robotsByName (robots : List RobotConfig) : List (String × RobotConfig) :=
  robots.foldl (fun out r => upsertAssoc out r.name r) []

/-- Modelled from the spec: `router.CompileMentionRules` compiles the
declared mention-override rules preserving declared order, each carrying
its match predicate and mention policy (the `internal/router` package is
not among the provided sources). -/
def CompileMentionRules (rules : List MentionRuleConfig) : List MentionRule :=
  rules.map (fun rc => { name := rc.name, whenCfg := rc.whenCfg, mention := rc.mention })

/-- Embedding of `router.Route` as carried by the runtime snapshot. -/
structure Route where
  name : String
  whenCfg : WhenConfig
  channels : List String
deriving Repr, DecidableEq

/-- Modelled from the spec: `router.CompileRoutes` compiles ordered routes
preserving declaration order (the `internal/router` package is not among
the provided sources). -/
def CompileRoutes (routes : List RouteConfig) : List Route :=
  routes.map (fun rc => { name := rc.name, whenCfg := rc.whenCfg, channels := rc.channels })

/-- The robot resolution loop inside `runtime.compileChannels`. -/
def resolveRobots (chName : String) (robots : List (String × RobotConfig)) :
    List String → Except String (List RobotConfig)
  | [] => .ok []
  | r :: rest =>
    match assocLookup robots r with
    | none => .error ("channel " ++ chName ++ " references unknown robot " ++ r)
    | some robot => (resolveRobots chName robots rest).map (fun tail => robot :: tail)

/-- The channel loop of `runtime.compileChannels`. -/
def compileChannelList (robots : List (String × RobotConfig))
    (out : List (String × Channel)) :
    List ChannelConfig → Except String (List (String × Channel))
  | [] => .ok out
  | ch :: rest =>
    let name := goTrimSpace ch.name
    if name = "" then .error "channel name is empty"
    else
      let tplName0 := goTrimSpace ch.template
      let tplName := if tplName0 = "" then "default" else tplName0
      if tplName ≠ "" ∧ ValidTemplateName tplName = false then
        .error ("channel " ++ name ++ " has invalid template name " ++ tplName)
      else
        match resolveRobots name robots ch.robots with
        | .error e => .error e
        | .ok robotCfgs =>
          let mention := normalizeMention ch.mention
          let rules := (CompileMentionRules ch.mentionRules).map
            (fun ru => { ru with mention := normalizeMention ru.mention })
          compileChannelList robots
            (upsertAssoc out name
              { name := name, robots := robotCfgs, template := tplName,
                mention := mention, mentionRules := rules })
            rest

/-- Embedding of `runtime.compileChannels`. -/
def compileChannels (robots : List (String × RobotConfig))
    (channelsCfg : List ChannelConfig) : Except String (List (String × Channel)) :=
  compileChannelList robots [] channelsCfg

/-- The template name a channel is bound to inside `runtime.Build`'s
integrity check: the trimmed declared name, defaulting to the renderer's
default name when blank. -/
def resolveChannelTemplate (r : Renderer) (ch : Channel) : String :=
  let t := goTrimSpace ch.template
  if t = "" then r.defaultName else t

/-- The post-build integrity loop of `runtime.Build`: every channel's
bound template name must be registered in the renderer. -/
def crossCheckChannels (r : Renderer) : List (String × Channel) → Except String Unit
  | [] => .ok ()
  | (name, ch) :: rest =>
    let tplName := resolveChannelTemplate r ch
    if r.HasTemplate tplName then crossCheckChannels r rest
    else .error ("channel " ++ name ++ " references unknown template " ++ tplName)

/-- Embedding of `runtime.Runtime` (the outbound HTTP client, an external
collaborator holding only a timeout, is omitted). -/
structure RuntimeModel where
  configPath : String
  baseDir : String
  config : Config
  renderer : Renderer
  robots : List (String × RobotConfig)
  channels : List (String × Channel)
  routes : List Route
  loadedAt : Int
deriving Repr, DecidableEq

/-- Embedding of `runtime.Build`: compile the renderer, compile the
channels, run the template cross-reference check, compile the routes,
require the `default` channel, and only then assemble the snapshot. -/
def Build (fs : RenderFS) (configPath baseDir : String) (now : Int)
    (cfg : Config) : Except String RuntimeModel := do
  let renderer ← NewRenderer fs cfg.template.dir
  let robots := robotsByName cfg.dingtalk.robots
  let channels ← compileChannels robots cfg.dingtalk.channels
  crossCheckChannels renderer channels
  let routes := CompileRoutes cfg.dingtalk.routes
  if (assocLookup channels "default").isNone then
    throw "default channel is required"
  return { configPath := configPath, baseDir := baseDir, config := cfg,
           renderer := renderer, robots := robots, channels := channels,
           routes := routes, loadedAt := now }

/-- Embedding of `runtime.LoadFromFile`: `config.Load` then `Build`. -/
def LoadFromFile (env : LoadEnv) (fs : RenderFS) (configPath : String)
    (now : Int) : Except String RuntimeModel := do
  let cfg ← configLoad configPath env
  Build fs configPath env.baseDir now cfg

/-- The NUL separator byte the fingerprint writes between fields. -/
def nulChar : Char := Char.ofNat 0

/-- File metadata as used by the fingerprint: `st.Size()` and
`st.ModTime().UnixNano()`. -/
structure FileStat where
  size : Int
  mtimeNanos : Int
deriving Repr, DecidableEq

/-- One decimal digit character. -/
def digitChar : Nat → Char
  | 0 => '0'
  | 1 => '1'
  | 2 => '2'
  | 3 => '3'
  | 4 => '4'
  | 5 => '5'
  | 6 => '6'
  | 7 => '7'
  | 8 => '8'
  | 9 => '9'
  | _ => '*'

/-- Fuel-driven decimal rendering loop (structurally recursive, so the
kernel can evaluate it). -/
def natDecCore : Nat → Nat → List Char → List Char
  | 0, _, acc => acc
  | fuel + 1, n, acc =>
    if n < 10 then digitChar n :: acc
    else natDecCore fuel (n / 10) (digitChar (n % 10) :: acc)

/-- Decimal rendering of a natural number, most significant digit first
(the `%d` verb of `fmt`). -/
def natDec (n : Nat) : List Char := natDecCore (n + 1) n []

/-- Recursive reference formulation of `natDec`, convenient for
induction. -/
def natDecRec (n : Nat) : List Char :=
  if _h : n < 10 then [digitChar n]
  else natDecRec (n / 10) ++ [digitChar (n % 10)]
termination_by n
decreasing_by exact Nat.div_lt_self (by omega) (by omega)

/-- Decimal rendering of an integer (the `%d` verb of `fmt`). -/
def intDec (i : Int) : List Char :=
  match i with
  | .ofNat n => natDec n
  | .negSucc n => '-' :: natDec (n + 1)

/-- The bytes `hashFileStat` feeds to the digest for one file:
`"file:" + path + NUL + "size:mtime" + NUL`. -/
def statChunk (path : String) (st : FileStat) : List Char :=
  ("file:" ++ path).data ++ nulChar :: ((intDec st.size ++ ':' :: intDec st.mtimeNanos) ++ [nulChar])

/-- One entry of the configured template directory, with the result a
re-`Stat` of it would give and its (never fingerprinted) content. -/
structure TmplDirEntry where
  name : String
  isDir : Bool
  stat : Except String FileStat
  content : String
deriving Repr, DecidableEq

/-- State of the configured template directory at fingerprint time. -/
inductive TmplDirState where
  | missing
  | failure (msg : String)
  | present (entries : List TmplDirEntry)
deriving Repr, DecidableEq

/-- The filesystem snapshot the fingerprint runs against: the
configuration file's stat result and content, and the template
directory. -/
structure FpFS where
  configStat : Except String FileStat
  configContent : String
  tplDir : TmplDirState
deriving Repr, DecidableEq

/-- Insertion into a sorted string list. -/
def insertSorted (nm : String) : List String → List String
  | [] => [nm]
  | x :: xs => if nm ≤ x then nm :: x :: xs else x :: insertSorted nm xs

/-- Embedding of `sort.Strings` (Go byte-wise lexicographic order agrees
with code-point order on UTF-8 strings). -/
def sortStrings (l : List String) : List String :=
  l.foldr insertSorted []

/-- The names `hashTemplateDir` keeps: non-directory entries with the
`.tmpl` extension. -/
def tmplFileNames (entries : List TmplDirEntry) : List String :=
  (entries.filter (fun e => !e.isDir && hasTmplExt e.name)).map (fun e => e.name)

/-- Stat of the named directory entry (the `os.Stat(filepath.Join(dir,
name))` inside the loop; names come from the listing, so the lookup
always finds its entry). -/
def statForName (entries : List TmplDirEntry) (nm : String) : Except String FileStat :=
  match entries with
  | [] => .error "no such file"
  | e :: rest => if e.name == nm then e.stat else statForName rest nm

/-- The per-name loop of `hashTemplateDir`: each sorted name is re-stated
and contributes its `statChunk`; a stat failure aborts the fingerprint. -/
def dirFilesChunks (dir : String) (entries : List TmplDirEntry) :
    List String → Except String (List Char)
  | [] => .ok []
  | nm :: rest =>
    match statForName entries nm with
    | .error e => .error ("stat " ++ (dir ++ "/" ++ nm) ++ ": " ++ e)
    | .ok st =>
      (dirFilesChunks dir entries rest).map
        (fun tail => statChunk (dir ++ "/" ++ nm) st ++ tail)

/-- Embedding of `reload.fingerprint`, modelled by the exact byte
sequence fed to the SHA-256 digest (`filepath.Join(dir, name)` is
rendered as `dir ++ "/" ++ name`, its value on cleaned directory paths
and plain entry names).  Content bytes are never part of the input. -/
def fingerprint (configPath : String) (tplDirRaw : String) (fs : FpFS) :
    Except String (List Char) :=
  match fs.configStat with
  | .error e => .error ("stat " ++ configPath ++ ": " ++ e)
  | .ok st =>
    let head := statChunk configPath st
    let tplDir := goTrimSpace tplDirRaw
    if tplDir = "" then .ok head
    else
      match fs.tplDir with
      | .failure e => .error ("read template dir " ++ tplDir ++ ": " ++ e)
      | .missing =>
        .ok (head ++ ("dir:" ++ tplDir).data ++ nulChar :: ("missing".data ++ [nulChar]))
      | .present entries =>
        match dirFilesChunks tplDir entries (sortStrings (tmplFileNames entries)) with
        | .error e => .error e
        | .ok chunks => .ok (head ++ ("dir:" ++ tplDir).data ++ nulChar :: chunks)

/-- The fingerprint's informational inputs for the template directory
dimension. -/
inductive DirView where
  | noDir
  | missing
  | files (l : List (String × FileStat))
deriving Repr, DecidableEq

/-- The fingerprint's informational inputs: the configuration file's
(size, mtime) pair, and — when a template directory is configured — the
sorted `.tmpl` names each with its (size, mtime) pair, or the missing
marker. -/
structure FpView where
  configStat : FileStat
  dir : DirView
deriving Repr, DecidableEq

/-- The sorted name/stat pairs of the directory dimension (with the same
error results as the fingerprint's per-name loop). -/
def dirFilesView (dir : String) (entries : List TmplDirEntry) :
    List String → Except String (List (String × FileStat))
  | [] => .ok []
  | nm :: rest =>
    match statForName entries nm with
    | .error e => .error ("stat " ++ (dir ++ "/" ++ nm) ++ ": " ++ e)
    | .ok st => (dirFilesView dir entries rest).map (fun tail => (nm, st) :: tail)

/-- The informational inputs the fingerprint is a function of (with the
same error results as the fingerprint itself). -/
def fpView (configPath tplDirRaw : String) (fs : FpFS) : Except String FpView :=
  match fs.configStat with
  | .error e => .error ("stat " ++ configPath ++ ": " ++ e)
  | .ok st =>
    let tplDir := goTrimSpace tplDirRaw
    if tplDir = "" then .ok { configStat := st, dir := .noDir }
    else
      match fs.tplDir with
      | .failure e => .error ("read template dir " ++ tplDir ++ ": " ++ e)
      | .missing => .ok { configStat := st, dir := .missing }
      | .present entries =>
        match dirFilesView tplDir entries (sortStrings (tmplFileNames entries)) with
        | .error e => .error e
        | .ok l => .ok { configStat := st, dir := .files l }

/-- Serialization of the directory file list. -/
def serializeFiles (dir : String) : List (String × FileStat) → List Char
  | [] => []
  | (nm, st) :: rest => statChunk (dir ++ "/" ++ nm) st ++ serializeFiles dir rest

/-- Serialization of the fingerprint's informational inputs into the
digest preimage. -/
def serializeView (configPath tplDir : String) (v : FpView) : List Char :=
  statChunk configPath v.configStat ++
  match v.dir with
  | .noDir => []
  | .missing => ("dir:" ++ tplDir).data ++ nulChar :: ("missing".data ++ [nulChar])
  | .files l => ("dir:" ++ tplDir).data ++ nulChar :: serializeFiles tplDir l

/-- Erase the (never fingerprinted) content of a directory entry. -/
def stripEntryContent (e : TmplDirEntry) : TmplDirEntry :=
  { e with content := "" }

/-- Erase every file content from the fingerprint's filesystem snapshot,
keeping all metadata. -/
def stripFpContent (fs : FpFS) : FpFS :=
  { fs with
    configContent := "",
    tplDir :=
      match fs.tplDir with
      | .present es => .present (es.map stripEntryContent)
      | other => other }

/-- All template directory entry names are free of NUL bytes (true of any
real filesystem). -/
def fsNamesNulFree (fs : FpFS) : Bool :=
  match fs.tplDir with
  | .present es => es.all (fun e => !e.name.data.contains nulChar)
  | _ => true

/-- Mutable bookkeeping of `reload.Manager` together with the snapshot
held by the atomic `runtime.Store` it writes to (the store itself is a
plain atomic reference whose defining file is not among the provided
sources; it holds exactly one snapshot). -/
structure ManagerState where
  lastFingerprint : List Char
  lastSuccess : Int
  lastError : Option String
  stored : RuntimeModel
deriving Repr, DecidableEq

/-- External world of one `Reload` call: the filesystem as seen by the
fingerprint, the configuration read/parse oracle, the template compile
oracle, and the current time. -/
structure ReloadEnv where
  loadEnv : LoadEnv
  renderFS : RenderFS
  fpFS : FpFS
  now : Int

/-- Embedding of `Manager.fingerprintFromCurrent`: fingerprint the fixed
configuration path with the template directory recorded in the currently
served snapshot. -/
def fingerprintFromCurrent (configPath : String) (env : ReloadEnv)
    (s : ManagerState) : Except String (List Char) :=
  fingerprint configPath s.stored.config.template.dir env.fpFS

/-- Embedding of `Manager.Reload`: compute the current fingerprint; when
not forced and unchanged, no-op; otherwise run the full load/build
pipeline and, only on success, store the new snapshot and bookkeeping. -/
def Reload (configPath : String) (env : ReloadEnv) (force : Bool)
    (s : ManagerState) : Except String Unit × ManagerState :=
  match fingerprintFromCurrent configPath env s with
  | .error e => (.error e, { s with lastError := some e })
  | .ok currentFP =>
    if force = false ∧ currentFP = s.lastFingerprint then (.ok (), s)
    else
      match LoadFromFile env.loadEnv env.renderFS configPath env.now with
      | .error e => (.error e, { s with lastError := some e })
      | .ok next =>
        match fingerprint configPath next.config.template.dir env.fpFS with
        | .error e => (.error e, { s with lastError := some e })
        | .ok nextFP =>
          (.ok (),
           { lastFingerprint := nextFP, lastSuccess := env.now,
             lastError := none, stored := next })

/-- Embedding of `Manager.ReloadIfChanged`: cheap fingerprint comparison
before delegating to `Reload(force=false)`. -/
def ReloadIfChanged (configPath : String) (env : ReloadEnv)
    (s : ManagerState) : Except String Unit × ManagerState :=
  match fingerprintFromCurrent configPath env s with
  | .error e => (.error e, s)
  | .ok fp =>
    if fp = s.lastFingerprint then (.ok (), s)
    else Reload configPath env false s

/-- Embedding of `reload.Status`. -/
structure StatusModel where
  enabled : Bool
  lastSuccess : Int
  lastError : String
deriving Repr, DecidableEq

/-- Embedding of `Manager.Status`: the error text, or empty when no error
is recorded. -/
def managerStatus (enabled : Bool) (s : ManagerState) : StatusModel :=
  { enabled := enabled, lastSuccess := s.lastSuccess,
    lastError :=
      match s.lastError with
      | none => ""
      | some e => e }

/-- The two headers `server.checkToken` reads (an absent header reads as
the empty string, as with Go `http.Header.Get`). -/
structure HttpRequest where
  authorization : String
  xToken : String
deriving Repr, DecidableEq

/-- ASCII lowercasing of one character. -/
def asciiToLower (c : Char) : Char :=
  if 'A' ≤ c ∧ c ≤ 'Z' then Char.ofNat (c.toNat + 32) else c

/-- The `strings.HasPrefix(strings.ToLower(auth), "bearer ")` test of
`checkToken` (only ASCII case matters for this fixed prefix). -/
def hasBearer (s : String) : Bool :=
  (s.data.map asciiToLower).take 7 == ['b', 'e', 'a', 'r', 'e', 'r', ' ']

/-- Embedding of `server.checkToken`: a blank configured token disables
the check entirely; otherwise a bearer token, then the `X-Token` header,
is compared against the configured token, and a request with neither is
rejected. -/
def checkToken (r : HttpRequest) (expected : String) : Except String Unit :=
  if goTrimSpace expected = "" then .ok ()
  else
    let auth := goTrimSpace r.authorization
    if hasBearer auth then
      let token := goTrimSpace (String.mk (auth.data.drop 7))
      if token = expected then .ok () else .error "token mismatch"
    else
      let token := goTrimSpace r.xToken
      if token ≠ "" then
        if token = expected then .ok () else .error "token mismatch"
      else .error "missing token"

/-- The all-empty mention policy. -/
def emptyMention : MentionConfig :=
  { atAll := false, atMobiles := [], atUserIds := [] }

/-- A minimal configuration document with one robot (whose webhook is the
given string), one `default` channel bound to the given template name,
and everything else left at its zero value. -/
def cfgSample (webhook tpl : String) : Config :=
  { server :=
      { listen := "", path := "", readTimeout := 0, writeTimeout := 0,
        idleTimeout := 0, maxBodyBytes := 0 },
    auth := { token := "" },
    admin :=
      { enabled := false, pathPrefix := "",
        basicAuth := { username := "", password := "", passwordSHA256 := "", salt := "" } },
    reload := { enabled := false, interval := 0 },
    template := { dir := "" },
    dingtalk :=
      { timeout := 0,
        robots :=
          [{ name := "r1", webhook := webhook, secret := "", msgType := "markdown", title := "" }],
        channels :=
          [{ name := "default", robots := ["r1"], template := tpl,
             mention := emptyMention, mentionRules := [] }],
        routes := [] } }

/-- The sample robot of `cfgSample`. -/
def sampleRobot : RobotConfig :=
  { name := "r1", webhook := "http://example.invalid", secret := "",
    msgType := "markdown", title := "" }

/-- A renderer oracle whose directory is absent and whose template texts
all parse. -/
def sampleRenderFS : RenderFS :=
  { embeddedText := "body", parseOk := fun _ => true, dirRead := .notExist }

/-- A concrete runtime snapshot (its configuration has no template
directory). -/
def sampleRuntime : RuntimeModel :=
  { configPath := "c.yaml", baseDir := ".",
    config := cfgSample "http://example.invalid" "",
    renderer := { defaultName := "default", templates := ["default"] },
    robots := [("r1", sampleRobot)],
    channels :=
      [("default",
        { name := "default", robots := [sampleRobot], template := "default",
          mention := emptyMention, mentionRules := [] })],
    routes := [], loadedAt := 0 }

/-- A concrete configuration file stat. -/
def sampleStat : FileStat := { size := 5, mtimeNanos := 7 }

/-- A concrete fingerprint filesystem whose template directory is
missing. -/
def sampleFpFS : FpFS :=
  { configStat := .ok sampleStat, configContent := "x", tplDir := .missing }

/-- A concrete template directory entry. -/
def sampleTmplEntry : TmplDirEntry :=
  { name := "a.tmpl", isDir := false,
    stat := .ok { size := 1, mtimeNanos := 2 }, content := "zz" }

/-- The fingerprint filesystem of `sampleFpFS` with the directory present
and holding one template file. -/
def sampleFpFSPresent : FpFS :=
  { configStat := .ok sampleStat, configContent := "y",
    tplDir := .present [sampleTmplEntry] }

/-- The fingerprint bytes of `sampleFpFS` for path `c.yaml` and no
template directory. -/
def sampleFingerprintBytes : List Char :=
  statChunk "c.yaml" sampleStat

/-- A load oracle whose configuration file read fails. -/
def sampleLoadEnvErr : LoadEnv :=
  { readFile := .error "boom", unmarshal := fun _ => .error "unused",
    joinPath := fun a b => a ++ "/" ++ b, baseDir := "." }

/-- A reload environment whose file read fails but whose fingerprint
succeeds. -/
def sampleReloadEnvErr : ReloadEnv :=
  { loadEnv := sampleLoadEnvErr, renderFS := sampleRenderFS,
    fpFS := sampleFpFS, now := 42 }

/-- A manager state serving `sampleRuntime` whose recorded fingerprint
matches `sampleFpFS` and which carries a recorded error. -/
def sampleState : ManagerState :=
  { lastFingerprint := sampleFingerprintBytes, lastSuccess := 0,
    lastError := some "old error", stored := sampleRuntime }


/-- The ten decimal digit characters. -/
def digitChars : List Char := ['0', '1', '2', '3', '4', '5', '6', '7', '8', '9']

/-- The channels `compileChannels` produces for
`cfgSample "http://example.invalid" "nosuch"`. -/
def sampleBadChannels : List (String × Channel) :=
  [("default",
    { name := "default", robots := [sampleRobot], template := "nosuch",
      mention := emptyMention, mentionRules := [] })]

/-- Names occurring in a file view are NUL-free. -/
def viewNamesNulFree (v : FpView) : Prop :=
  match v.dir with
  | .files l => ∀ p ∈ l, nulChar ∉ p.1.data
  | _ => True

/-- The fingerprint bytes of `sampleFpFS` for path `c.yaml` and template
directory `tpl` (directory missing). -/
def sampleFpMissingBytes : List Char :=
  statChunk "c.yaml" sampleStat ++
    ("dir:" ++ "tpl").data ++ nulChar :: ("missing".data ++ [nulChar])

/-- The fingerprint bytes of `sampleFpFSPresent` for path `c.yaml` and
template directory `tpl` (one template file present). -/
def sampleFpPresentBytes : List Char :=
  statChunk "c.yaml" sampleStat ++
    ("dir:" ++ "tpl").data ++
      nulChar :: serializeFiles "tpl" [("a.tmpl", { size := 1, mtimeNanos := 2 })]

/-!  Proofs.  -/

theorem normalizeIdsLoop_eq_spec (l : List String) : ∀ seen out : List String,
    normalizeIdsLoop seen out l =
      out ++ dedupKeepFirst ((l.map cleanId).filter
        (fun w => !(w == "") && !(seen.contains w))) := by
  induction l with
  | nil => intro seen out; simp [normalizeIdsLoop, dedupKeepFirst]
  | cons v rest ih =>
    intro seen out
    by_cases hw : cleanId v = ""
    · simp [normalizeIdsLoop, hw, ih]
    · by_cases hmem : cleanId v ∈ seen
      · simp [normalizeIdsLoop, hw, hmem, ih, List.filter_cons]
      · simp [normalizeIdsLoop, hw, hmem, ih, List.filter_cons, dedupKeepFirst]
        congr 1
        apply List.filter_congr
        intro a _
        by_cases h1 : a = ""
        · simp [h1]
        · by_cases h2 : a = cleanId v <;> by_cases h3 : a ∈ seen <;> simp [h1, h2, h3]



/-- C7: mention-policy normalization clears both identifier lists when
the at-all flag is set; otherwise each identifier is trimmed, stripped of
one leading at sign, blanks are dropped and duplicates removed keeping
the first occurrence; in particular the user-id list
`["@u1", "u1", " u2 "]` normalizes to `["u1", "u2"]`. -/
theorem normalizeMentionClaim :
    (∀ m : MentionConfig, m.atAll = true →
      normalizeMention m = { m with atMobiles := [], atUserIds := [] }) ∧
    (∀ m : MentionConfig, m.atAll = false →
      (normalizeMention m).atUserIds = normalizeIdsSpec m.atUserIds ∧
      (normalizeMention m).atMobiles = normalizeIdsSpec m.atMobiles) ∧
    normalizeMention { atAll := false, atMobiles := [], atUserIds := ["@u1", "u1", " u2 "] } =
      { atAll := false, atMobiles := [], atUserIds := ["u1", "u2"] } := by
  refine ⟨?_, ?_, ?_⟩
  · intro m h; simp [normalizeMention, h]
  · intro m h
    have hn : ∀ l : List String, normalizeIds l = normalizeIdsSpec l := by
      intro l
      rw [normalizeIds, normalizeIdsLoop_eq_spec]
      simp [normalizeIdsSpec]
    exact ⟨by simp [normalizeMention, h, hn], by simp [normalizeMention, h, hn]⟩
  · decide

/-- Witness for the C7 theorem at a concrete at-all policy. -/
theorem normalizeMentionClaimWitness :
    normalizeMention { atAll := true, atMobiles := ["13800000000"], atUserIds := ["u1"] } =
      { atAll := true, atMobiles := [], atUserIds := [] } :=
  normalizeMentionClaim.1 _ rfl

/-- A guarded fold over all rules equals the plain fold over the matching
rules' mention policies. -/
theorem foldl_guard_eq_filter (msg : WebhookMessage) (rules : List MentionRule) :
    ∀ init : MentionConfig,
      rules.foldl
        (fun out rule => if rule.whenCfg.Match msg then MergeMention out rule.mention else out)
        init =
      ((rules.filter (fun r => r.whenCfg.Match msg)).map (fun r => r.mention)).foldl
        MergeMention init := by
  induction rules with
  | nil => intro init; rfl
  | cons r rest ih =>
    intro init
    by_cases h : r.whenCfg.Match msg = true
    · simp [List.filter_cons, h, ih]
    · have h' : r.whenCfg.Match msg = false := eq_false_of_ne_true h
      simp [List.filter_cons, h', ih]

/-- C6: the effective mention policy for a message is a fold starting
from the channel's base policy that merges, field-level and in declared
order, the mention fields of every override rule whose predicate matches,
with normalization applied exactly once to the final merged result. -/
theorem effectiveMentionClaim (c : Channel) (msg : WebhookMessage) :
    c.EffectiveMention msg =
      normalizeMention
        (((c.mentionRules.filter (fun r => r.whenCfg.Match msg)).map (fun r => r.mention)).foldl
          MergeMention c.mention) := by
  unfold Channel.EffectiveMention
  rw [foldl_guard_eq_filter]

/-- C9: a blank (empty or whitespace-only) configured token disables
authentication — `checkToken` accepts every request; with a non-blank
token, a request carrying neither a bearer `Authorization` header nor an
`X-Token` header is rejected. -/
theorem checkTokenClaim :
    (∀ (r : HttpRequest) (expected : String), goTrimSpace expected = "" →
      checkToken r expected = .ok ()) ∧
    (∀ expected : String, goTrimSpace expected ≠ "" →
      checkToken { authorization := "", xToken := "" } expected = .error "missing token") := by
  constructor
  · intro r expected h
    simp [checkToken, h]
  · intro expected h
    have e1 : goTrimSpace "" = "" := rfl
    have e2 : hasBearer "" = false := rfl
    simp [checkToken, h, e1, e2]

/-- Witness for the C9 theorem: a blank and a non-blank configured
token. -/
theorem checkTokenClaimWitness :
    checkToken { authorization := "Bearer zzz", xToken := "" } "  " = .ok () ∧
    checkToken { authorization := "", xToken := "" } "tok" = .error "missing token" :=
  ⟨checkTokenClaim.1 _ "  " (by decide), checkTokenClaim.2 "tok" (by decide)⟩

/-- C2 (code evidence): `config.validate` accepts a robot whose webhook
uses a non-HTTP(S) scheme, one with an empty host, and one that does not
even parse as a URL — the source checks only non-emptiness, contradicting
the claim and the repository's own `TestLoad_RejectInvalidRobotWebhook`. -/
theorem validateAcceptsInvalidWebhooks :
    validate (applyDefaults (cfgSample "ftp://example.invalid" "")) =
      .ok (applyDefaults (cfgSample "ftp://example.invalid" "")) ∧
    validate (applyDefaults (cfgSample "https:///robot/send?access_token=xxx" "")) =
      .ok (applyDefaults (cfgSample "https:///robot/send?access_token=xxx" "")) ∧
    validate (applyDefaults (cfgSample "://invalid" "")) =
      .ok (applyDefaults (cfgSample "://invalid" "")) := by
  refine ⟨?_, ?_, ?_⟩ <;> decide

/-- C8: with a configured template directory, `NewRenderer` tolerates a
missing directory and constructs the renderer with only the embedded
`default` template, while any other directory read error is fatal. -/
theorem newRendererClaim (fs : RenderFS) (cfgDir : String)
    (hemb : fs.parseOk fs.embeddedText = true)
    (hdir : goTrimSpace cfgDir ≠ "") :
    (fs.dirRead = .notExist →
      NewRenderer fs cfgDir = .ok { defaultName := "default", templates := ["default"] }) ∧
    (∀ e, fs.dirRead = .failure e →
      NewRenderer fs cfgDir = .error ("read template dir: " ++ e)) := by
  have h0 : goTrimSpace "default" = "default" := rfl
  constructor
  · intro hread
    simp [NewRenderer, loadTemplateText, insertName, hemb, hdir, hread, h0]
    rfl
  · intro e hread
    simp [NewRenderer, loadTemplateText, insertName, hemb, hdir, hread, h0]
    rfl

/-- Witness for the C8 theorem at a concrete oracle. -/
theorem newRendererClaimWitness :
    NewRenderer sampleRenderFS "templates" =
      .ok { defaultName := "default", templates := ["default"] } :=
  (newRendererClaim sampleRenderFS "templates" rfl (by decide)).1 rfl



/-- Bind on a successful `Except` reduces to the continuation. -/
theorem exceptBindOk {α β : Type} (a : α) (f : α → Except String β) :
    (Except.ok a >>= f) = f a := rfl

/-- Bind on a failed `Except` short-circuits. -/
theorem exceptBindErr {α β : Type} (e : String) (f : α → Except String β) :
    ((Except.error e : Except String α) >>= f) = Except.error e := rfl

/-- A channel whose bound template is unregistered makes the integrity
loop fail. -/
theorem crossCheck_error_of_bad (r : Renderer) :
    ∀ channels : List (String × Channel), ∀ p ∈ channels,
      r.HasTemplate (resolveChannelTemplate r p.2) = false →
      ∃ e, crossCheckChannels r channels = .error e := by
  intro channels
  induction channels with
  | nil => intro p hp; cases hp
  | cons q rest ih =>
    intro p hp hbad
    obtain ⟨name, ch⟩ := q
    by_cases hq : r.HasTemplate (resolveChannelTemplate r ch) = true
    · cases hp with
      | head => simp [hbad] at hq
      | tail _ hm =>
        obtain ⟨e, he⟩ := ih p hm hbad
        exact ⟨e, by simp [crossCheckChannels, hq, he]⟩
    · have hq2 : r.HasTemplate (resolveChannelTemplate r ch) = false :=
        eq_false_of_ne_true hq
      exact ⟨"channel " ++ name ++ " references unknown template " ++
               resolveChannelTemplate r ch,
             by simp [crossCheckChannels, hq2]⟩

/-- C5: when the renderer compiles and the channels compile individually,
but some compiled channel binds a template name that is not in the
compiled template set, the whole runtime snapshot build fails and
produces no snapshot. -/
theorem buildFailsOnDanglingTemplate (fs : RenderFS) (cp bd : String) (now : Int)
    (cfg : Config) (renderer : Renderer) (channels : List (String × Channel))
    (hrend : NewRenderer fs cfg.template.dir = .ok renderer)
    (hch : compileChannels (robotsByName cfg.dingtalk.robots) cfg.dingtalk.channels =
      .ok channels)
    (p : String × Channel) (hp : p ∈ channels)
    (hbad : renderer.HasTemplate (resolveChannelTemplate renderer p.2) = false) :
    ∃ e, Build fs cp bd now cfg = .error e := by
  obtain ⟨e, he⟩ := crossCheck_error_of_bad renderer channels p hp hbad
  refine ⟨e, ?_⟩
  simp only [Build, hrend, hch, exceptBindOk, he, exceptBindErr]

/-- Witness for the C5 theorem at a concrete configuration. -/
theorem buildFailsOnDanglingTemplateWitness :
    ∃ e, Build sampleRenderFS "c.yaml" "." 0
      (cfgSample "http://example.invalid" "nosuch") = .error e :=
  buildFailsOnDanglingTemplate sampleRenderFS "c.yaml" "." 0 _
    { defaultName := "default", templates := ["default"] } sampleBadChannels
    (by decide) (by decide)
    ("default",
      { name := "default", robots := [sampleRobot], template := "nosuch",
        mention := emptyMention, mentionRules := [] })
    (by decide) (by decide)

/-- C1: whenever any stage of `Reload` fails — the current-fingerprint
computation, the read/parse/validate/compile/cross-check pipeline inside
`LoadFromFile`, or the new snapshot's fingerprint — the call returns that
stage's error, records it so the status text equals it (and is non-empty
whenever the error text is), and leaves the stored snapshot untouched, so
a subsequent load from the store yields the identical snapshot. -/
theorem reloadFailureClaim (cp : String) (env : ReloadEnv) (force : Bool)
    (s : ManagerState) (e : String)
    (hfail :
      fingerprintFromCurrent cp env s = .error e ∨
      (∃ fp, fingerprintFromCurrent cp env s = .ok fp ∧
        (force = true ∨ fp ≠ s.lastFingerprint) ∧
        LoadFromFile env.loadEnv env.renderFS cp env.now = .error e) ∨
      (∃ fp next, fingerprintFromCurrent cp env s = .ok fp ∧
        (force = true ∨ fp ≠ s.lastFingerprint) ∧
        LoadFromFile env.loadEnv env.renderFS cp env.now = .ok next ∧
        fingerprint cp next.config.template.dir env.fpFS = .error e)) :
    Reload cp env force s = (.error e, { s with lastError := some e }) ∧
    (Reload cp env force s).2.stored = s.stored ∧
    (∀ en, (managerStatus en (Reload cp env force s).2).lastError = e) ∧
    (e ≠ "" → ∀ en, (managerStatus en (Reload cp env force s).2).lastError ≠ "") := by
  have hmain : Reload cp env force s = (.error e, { s with lastError := some e }) := by
    rcases hfail with h1 | ⟨fp, h1, h2, h3⟩ | ⟨fp, next, h1, h2, h3, h4⟩
    · simp [Reload, h1]
    · have hcond : ¬(force = false ∧ fp = s.lastFingerprint) := by
        rintro ⟨hf, hfp⟩
        rcases h2 with h2 | h2
        · rw [h2] at hf; cases hf
        · exact h2 hfp
      simp [Reload, h1, h3, hcond]
    · have hcond : ¬(force = false ∧ fp = s.lastFingerprint) := by
        rintro ⟨hf, hfp⟩
        rcases h2 with h2 | h2
        · rw [h2] at hf; cases hf
        · exact h2 hfp
      simp [Reload, h1, h3, h4, hcond]
  refine ⟨hmain, by simp [hmain], ?_, ?_⟩
  · intro en; simp [hmain, managerStatus]
  · intro hne en; simp [hmain, managerStatus]; exact hne

/-- Witness for the C1 theorem: a failing configuration file read under a
forced reload. -/
theorem reloadFailureClaimWitness :
    Reload "c.yaml" sampleReloadEnvErr true sampleState =
      (.error "read config: boom",
       { sampleState with lastError := some "read config: boom" }) ∧
    (Reload "c.yaml" sampleReloadEnvErr true sampleState).2.stored = sampleState.stored ∧
    (managerStatus false (Reload "c.yaml" sampleReloadEnvErr true sampleState).2).lastError =
      "read config: boom" := by
  have h := reloadFailureClaim "c.yaml" sampleReloadEnvErr true sampleState
    "read config: boom"
    (Or.inr (Or.inl ⟨sampleFingerprintBytes, by decide, Or.inl rfl, by decide⟩))
  exact ⟨h.1, h.2.1, h.2.2.1 false⟩

/-- C4: whenever the computed fingerprint equals the recorded one,
`Reload(force=false)` returns success immediately with the manager state
(store included) completely unchanged, and this holds for every
load/build oracle — the pipeline is never consulted; consequently, with
an unchanged environment, a second `Reload(force=false)` after a
successful first call is such a fingerprint-equal no-op, so two calls
perform at most one rebuild. -/
theorem reloadNoopClaim (cp : String) (env : ReloadEnv) (s : ManagerState) :
    (∀ fp, fingerprintFromCurrent cp env s = .ok fp → fp = s.lastFingerprint →
      Reload cp env false s = (.ok (), s)) ∧
    (∀ r s1, Reload cp env false s = (r, s1) → r = .ok () →
      Reload cp env false s1 = (.ok (), s1)) := by
  constructor
  · intro fp h1 h2
    simp [Reload, h1, h2]
  · intro r s1 hcall hr
    subst hr
    cases h1 : fingerprintFromCurrent cp env s with
    | error e => simp [Reload, h1] at hcall
    | ok fp =>
      by_cases h2 : fp = s.lastFingerprint
      · have h3 : Reload cp env false s = (.ok (), s) := by simp [Reload, h1, h2]
        rw [h3] at hcall
        have hs1 : s = s1 := congrArg Prod.snd hcall
        rw [← hs1]
        exact h3
      · cases h3 : LoadFromFile env.loadEnv env.renderFS cp env.now with
        | error e => simp [Reload, h1, h2, h3] at hcall
        | ok next =>
          cases h4 : fingerprint cp next.config.template.dir env.fpFS with
          | error e => simp [Reload, h1, h2, h3, h4] at hcall
          | ok nfp =>
            have h5 : Reload cp env false s =
                (.ok (), { lastFingerprint := nfp, lastSuccess := env.now,
                           lastError := none, stored := next }) := by
              simp [Reload, h1, h2, h3, h4]
            rw [h5] at hcall
            have hs1 : ({ lastFingerprint := nfp, lastSuccess := env.now,
                          lastError := none, stored := next } : ManagerState) = s1 :=
              congrArg Prod.snd hcall
            rw [← hs1]
            simp [Reload, fingerprintFromCurrent, h4]

/-- Witness for the C4 theorem: a fingerprint-equal state under an oracle
whose pipeline would fail if it were consulted. -/
theorem reloadNoopClaimWitness :
    Reload "c.yaml" sampleReloadEnvErr false sampleState = (.ok (), sampleState) :=
  (reloadNoopClaim "c.yaml" sampleReloadEnvErr sampleState).1 sampleFingerprintBytes
    (by decide) (by decide)

/-- C10: the not-forced fingerprint-unchanged path returns success and
leaves the whole manager state — `lastError`, `lastSuccess` and
`lastFingerprint` included — unmodified, so an error recorded by an
earlier failed reload stays visible in the status. -/
theorem reloadNoopKeepsError (cp : String) (env : ReloadEnv) (s : ManagerState)
    (fp : List Char) (e : String)
    (herr : s.lastError = some e)
    (hfp : fingerprintFromCurrent cp env s = .ok fp)
    (heq : fp = s.lastFingerprint) :
    Reload cp env false s = (.ok (), s) ∧
    (∀ en, managerStatus en (Reload cp env false s).2 = managerStatus en s) ∧
    (∀ en, (managerStatus en (Reload cp env false s).2).lastError = e) := by
  have h : Reload cp env false s = (.ok (), s) := by simp [Reload, hfp, heq]
  refine ⟨h, ?_, ?_⟩
  · intro en; rw [h]
  · intro en; rw [h]; simp [managerStatus, herr]

/-- Witness for the C10 theorem: the no-op reload preserves the recorded
error text. -/
theorem reloadNoopKeepsErrorWitness :
    Reload "c.yaml" sampleReloadEnvErr false sampleState = (.ok (), sampleState) ∧
    (managerStatus true (Reload "c.yaml" sampleReloadEnvErr false sampleState).2).lastError =
      "old error" := by
  have h := reloadNoopKeepsError "c.yaml" sampleReloadEnvErr sampleState
    sampleFingerprintBytes "old error" (by decide) (by decide) (by decide)
  exact ⟨h.1, h.2.2 true⟩

/-- Unfolding of `natDecRec` on a single digit. -/
theorem natDecRec_lt (n : Nat) (h : n < 10) : natDecRec n = [digitChar n] := by
  rw [natDecRec]; simp [h]

/-- Unfolding of `natDecRec` on a multi-digit number. -/
theorem natDecRec_ge (n : Nat) (h : ¬n < 10) :
    natDecRec n = natDecRec (n / 10) ++ [digitChar (n % 10)] := by
  rw [natDecRec]; simp [h]

/-- The fuel-driven decimal loop agrees with the recursive reference
formulation when the fuel exceeds the argument. -/
theorem natDecCore_eq (fuel : Nat) : ∀ n acc, n < fuel →
    natDecCore fuel n acc = natDecRec n ++ acc := by
  induction fuel with
  | zero => intro n acc h; omega
  | succ fuel ih =>
    intro n acc h
    show (if n < 10 then digitChar n :: acc
          else natDecCore fuel (n / 10) (digitChar (n % 10) :: acc)) =
        natDecRec n ++ acc
    by_cases h10 : n < 10
    · rw [if_pos h10, natDecRec_lt n h10]; rfl
    · have hpos : 0 < n := by omega
      have hdiv : n / 10 < n := Nat.div_lt_self hpos (by omega)
      have hfu : n / 10 < fuel := by omega
      rw [if_neg h10, ih _ _ hfu, natDecRec_ge n h10]
      simp

/-- `natDec` computes the recursive reference formulation. -/
theorem natDec_eq_rec (n : Nat) : natDec n = natDecRec n := by
  rw [natDec, natDecCore_eq (n + 1) n [] (by omega)]
  simp

/-- `digitChar` of a digit is a decimal digit character. -/
theorem digitChar_mem (d : Nat) (h : d < 10) : digitChar d ∈ digitChars := by
  interval_cases d <;> decide

/-- `digitChar` is injective on digits. -/
theorem digitChar_inj (a b : Nat) (ha : a < 10) (hb : b < 10)
    (h : digitChar a = digitChar b) : a = b := by
  interval_cases a <;> interval_cases b <;> first | rfl | (exfalso; revert h; decide)

/-- Every character of a rendered natural number is a digit. -/
theorem natDecRec_mem (n : Nat) : ∀ c ∈ natDecRec n, c ∈ digitChars := by
  induction n using Nat.strong_induction_on with
  | _ n ih =>
    by_cases h10 : n < 10
    · intro c hc
      rw [natDecRec_lt n h10] at hc
      simp at hc
      exact hc ▸ digitChar_mem n h10
    · intro c hc
      rw [natDecRec_ge n h10] at hc
      simp at hc
      rcases hc with hc | hc
      · have hpos : 0 < n := by omega
        exact ih (n / 10) (Nat.div_lt_self hpos (by omega)) c hc
      · exact hc ▸ digitChar_mem (n % 10) (Nat.mod_lt n (by omega))

/-- A rendered natural number is never empty. -/
theorem natDecRec_ne_nil (n : Nat) : natDecRec n ≠ [] := by
  by_cases h10 : n < 10
  · rw [natDecRec_lt n h10]; simp
  · rw [natDecRec_ge n h10]; simp

/-- Decimal rendering of natural numbers is injective. -/
theorem natDecRec_inj : ∀ a b : Nat, natDecRec a = natDecRec b → a = b := by
  intro a
  induction a using Nat.strong_induction_on with
  | _ a ih =>
    intro b h
    by_cases ha : a < 10 <;> by_cases hb : b < 10
    · rw [natDecRec_lt a ha, natDecRec_lt b hb] at h
      simp at h
      exact digitChar_inj a b ha hb h
    · exfalso
      rw [natDecRec_lt a ha, natDecRec_ge b hb] at h
      have hlen := congrArg List.length h
      simp at hlen
      cases hx : natDecRec (b / 10) with
      | nil => exact natDecRec_ne_nil (b / 10) hx
      | cons x xs => rw [hx] at hlen; simp at hlen
    · exfalso
      rw [natDecRec_ge a ha, natDecRec_lt b hb] at h
      have hlen := congrArg List.length h
      simp at hlen
      cases hx : natDecRec (a / 10) with
      | nil => exact natDecRec_ne_nil (a / 10) hx
      | cons x xs => rw [hx] at hlen; simp at hlen
    · rw [natDecRec_ge a ha, natDecRec_ge b hb] at h
      rw [← List.concat_eq_append, ← List.concat_eq_append, List.concat_inj] at h
      obtain ⟨h1, h2⟩ := h
      have hpos : 0 < a := by omega
      have hd : a / 10 = b / 10 := ih (a / 10) (Nat.div_lt_self hpos (by omega)) _ h1
      have hm : a % 10 = b % 10 :=
        digitChar_inj _ _ (Nat.mod_lt a (by omega)) (Nat.mod_lt b (by omega)) h2
      omega

/-- Every character of a rendered integer is a digit or the minus sign. -/
theorem intDec_mem (i : Int) : ∀ c ∈ intDec i, c ∈ '-' :: digitChars := by
  cases i with
  | ofNat n =>
    intro c hc
    rw [intDec] at hc
    rw [natDec_eq_rec] at hc
    exact List.mem_cons_of_mem _ (natDecRec_mem n c hc)
  | negSucc n =>
    intro c hc
    rw [intDec] at hc
    rw [natDec_eq_rec] at hc
    rcases List.mem_cons.mp hc with hc | hc
    · exact hc ▸ List.mem_cons_self _ _
    · exact List.mem_cons_of_mem _ (natDecRec_mem (n + 1) c hc)

/-- Decimal rendering of integers is injective. -/
theorem intDec_inj (i j : Int) (h : intDec i = intDec j) : i = j := by
  cases i with
  | ofNat n =>
    cases j with
    | ofNat m =>
      rw [intDec, intDec, natDec_eq_rec, natDec_eq_rec] at h
      exact congrArg Int.ofNat (natDecRec_inj n m h)
    | negSucc m =>
      exfalso
      rw [intDec, intDec, natDec_eq_rec] at h
      have hmm : '-' ∈ natDecRec n := h ▸ List.mem_cons_self '-' _
      have := natDecRec_mem n '-' hmm
      revert this; decide
  | negSucc n =>
    cases j with
    | ofNat m =>
      exfalso
      rw [intDec, intDec, natDec_eq_rec, natDec_eq_rec] at h
      have hmm : '-' ∈ natDecRec m := h ▸ List.mem_cons_self '-' _
      have := natDecRec_mem m '-' hmm
      revert this; decide
    | negSucc m =>
      rw [intDec, intDec, natDec_eq_rec, natDec_eq_rec] at h
      simp at h
      have h2 : n = m := by
        have := natDecRec_inj (n + 1) (m + 1) h
        omega
      rw [h2]

/-- Corollary: a rendered integer contains neither the colon separator
nor the NUL byte. -/
theorem intDec_no_colon_nul (i : Int) : ':' ∉ intDec i ∧ nulChar ∉ intDec i := by
  constructor
  · intro hc
    have := intDec_mem i ':' hc
    revert this; decide
  · intro hc
    have := intDec_mem i nulChar hc
    revert this; decide

/-- Splitting at a separator character absent from both prefixes is
unambiguous. -/
theorem sepSplit (sep : Char) : ∀ a1 a2 r1 r2 : List Char,
    sep ∉ a1 → sep ∉ a2 → a1 ++ sep :: r1 = a2 ++ sep :: r2 →
    a1 = a2 ∧ r1 = r2 := by
  intro a1
  induction a1 with
  | nil =>
    intro a2 r1 r2 _ h2 heq
    cases a2 with
    | nil => simpa using heq
    | cons b bs =>
      exfalso
      simp at heq
      exact h2 (heq.1 ▸ List.mem_cons_self b bs)
  | cons x xs ih =>
    intro a2 r1 r2 h1 h2 heq
    cases a2 with
    | nil =>
      exfalso
      simp at heq
      exact h1 (heq.1 ▸ List.mem_cons_self x xs)
    | cons b bs =>
      simp at heq
      obtain ⟨hx, hrest⟩ := heq
      have hxs : sep ∉ xs := fun hm => h1 (List.mem_cons_of_mem _ hm)
      have hbs : sep ∉ bs := fun hm => h2 (List.mem_cons_of_mem _ hm)
      obtain ⟨he, hr⟩ := ih bs r1 r2 hxs hbs hrest
      exact ⟨by rw [hx, he], hr⟩

/-- The strings of `String.mk` are equal iff their character lists are. -/
theorem stringMk_inj {a b : List Char} (h : String.mk a = String.mk b) : a = b := by
  injection h

/-- The `size:mtime` rendering determines the stat. -/
theorem statText_inj (st1 st2 : FileStat)
    (h : intDec st1.size ++ ':' :: intDec st1.mtimeNanos =
         intDec st2.size ++ ':' :: intDec st2.mtimeNanos) : st1 = st2 := by
  obtain ⟨hs, hm⟩ := sepSplit ':' _ _ _ _ (intDec_no_colon_nul st1.size).1
    (intDec_no_colon_nul st2.size).1 h
  obtain ⟨a, b⟩ := st1
  obtain ⟨c, d⟩ := st2
  simp only at hs hm
  simp [intDec_inj _ _ hs, intDec_inj _ _ hm]

/-- A stat chunk contains no NUL byte inside its two payload fields, so
its two NUL separators locate them; chunks over NUL-free paths peel off
unambiguously from a longer byte sequence. -/
theorem statChunk_peel (path1 path2 : String) (st1 st2 : FileStat) (r1 r2 : List Char)
    (hp1 : nulChar ∉ path1.data) (hp2 : nulChar ∉ path2.data)
    (heq : statChunk path1 st1 ++ r1 = statChunk path2 st2 ++ r2) :
    path1 = path2 ∧ st1 = st2 ∧ r1 = r2 := by
  have hshape : ∀ (p : String) (st : FileStat) (r : List Char),
      statChunk p st ++ r =
        ("file:" ++ p).data ++ nulChar ::
          ((intDec st.size ++ ':' :: intDec st.mtimeNanos) ++ nulChar :: r) := by
    intro p st r
    rw [statChunk]
    simp
  rw [hshape, hshape] at heq
  have hna : ∀ p : String, nulChar ∉ p.data → nulChar ∉ ("file:" ++ p).data := by
    intro p hp hm
    rw [String.data_append] at hm
    rcases List.mem_append.mp hm with hm | hm
    · revert hm; decide
    · exact hp hm
  obtain ⟨hpre, hrest⟩ := sepSplit nulChar _ _ _ _ (hna path1 hp1) (hna path2 hp2) heq
  have hpath : path1 = path2 := by
    rw [String.data_append, String.data_append] at hpre
    have h2 := List.append_cancel_left hpre
    cases path1; cases path2
    exact congrArg String.mk h2
  have hnostat : ∀ st : FileStat,
      nulChar ∉ intDec st.size ++ ':' :: intDec st.mtimeNanos := by
    intro st hm
    rcases List.mem_append.mp hm with hm | hm
    · exact (intDec_no_colon_nul st.size).2 hm
    · rcases List.mem_cons.mp hm with hm | hm
      · revert hm; decide
      · exact (intDec_no_colon_nul st.mtimeNanos).2 hm
  obtain ⟨hstat, hr⟩ := sepSplit nulChar _ _ _ _ (hnostat st1) (hnostat st2) hrest
  exact ⟨hpath, statText_inj st1 st2 hstat, hr⟩

/-- A stat chunk starts with the letter `f` of its `file:` tag. -/
theorem statChunk_head (p : String) (st : FileStat) :
    ∃ t, statChunk p st = 'f' :: t := by
  rw [statChunk, String.data_append]
  exact ⟨_, rfl⟩

/-- NUL-freeness of a joined directory entry path. -/
theorem joinedPath_nulFree (dir nm : String)
    (hd : nulChar ∉ dir.data) (hn : nulChar ∉ nm.data) :
    nulChar ∉ (dir ++ "/" ++ nm).data := by
  intro hm
  rw [String.data_append, String.data_append] at hm
  rcases List.mem_append.mp hm with hm | hm
  · rcases List.mem_append.mp hm with hm | hm
    · exact hd hm
    · revert hm; decide
  · exact hn hm

/-- Two joined paths under the same directory agree iff the entry names
do. -/
theorem joinedPath_inj (dir nm1 nm2 : String)
    (h : dir ++ "/" ++ nm1 = dir ++ "/" ++ nm2) : nm1 = nm2 := by
  have h2 := congrArg String.data h
  rw [String.data_append, String.data_append, String.data_append,
    String.data_append] at h2
  have h4 := List.append_cancel_left h2
  cases nm1; cases nm2
  exact congrArg String.mk h4

/-- The serialized file list determines the (name, stat) list. -/
theorem serializeFiles_inj (dir : String) (hd : nulChar ∉ dir.data) :
    ∀ l1 l2 : List (String × FileStat),
      (∀ p ∈ l1, nulChar ∉ p.1.data) → (∀ p ∈ l2, nulChar ∉ p.1.data) →
      serializeFiles dir l1 = serializeFiles dir l2 → l1 = l2 := by
  intro l1
  induction l1 with
  | nil =>
    intro l2 _ h2 heq
    cases l2 with
    | nil => rfl
    | cons q u =>
      exfalso
      obtain ⟨nm2, st2⟩ := q
      rw [serializeFiles, serializeFiles] at heq
      obtain ⟨tt, ht⟩ := statChunk_head (dir ++ "/" ++ nm2) st2
      rw [ht] at heq
      simp at heq
  | cons p t ih =>
    intro l2 h1 h2 heq
    obtain ⟨nm1, st1⟩ := p
    cases l2 with
    | nil =>
      exfalso
      rw [serializeFiles, serializeFiles] at heq
      obtain ⟨tt, ht⟩ := statChunk_head (dir ++ "/" ++ nm1) st1
      rw [ht] at heq
      simp at heq
    | cons q u =>
      obtain ⟨nm2, st2⟩ := q
      rw [serializeFiles, serializeFiles] at heq
      have hn1 : nulChar ∉ nm1.data := h1 (nm1, st1) (List.mem_cons_self _ _)
      have hn2 : nulChar ∉ nm2.data := h2 (nm2, st2) (List.mem_cons_self _ _)
      obtain ⟨hpath, hst, hrest⟩ := statChunk_peel _ _ st1 st2 _ _
        (joinedPath_nulFree dir nm1 hd hn1) (joinedPath_nulFree dir nm2 hd hn2) heq
      have hnm : nm1 = nm2 := joinedPath_inj dir nm1 nm2 hpath
      have ht : t = u := ih u
        (fun p hp => h1 p (List.mem_cons_of_mem _ hp))
        (fun p hp => h2 p (List.mem_cons_of_mem _ hp)) hrest
      rw [hnm, hst, ht]

/-- The `dir:` tag is NUL-free for a NUL-free directory path. -/
theorem dirTag_nulFree (td : String) (htd : nulChar ∉ td.data) :
    nulChar ∉ ("dir:" ++ td).data := by
  intro hm
  rw [String.data_append] at hm
  rcases List.mem_append.mp hm with hm | hm
  · revert hm; decide
  · exact htd hm

/-- The digest preimage determines the fingerprint's informational
inputs: `serializeView` is injective for a fixed configuration path and
template directory (both NUL-free, as any real path is). -/
theorem serializeView_inj (cp td : String)
    (hcp : nulChar ∉ cp.data) (htd : nulChar ∉ td.data) :
    ∀ v1 v2 : FpView, viewNamesNulFree v1 → viewNamesNulFree v2 →
      serializeView cp td v1 = serializeView cp td v2 → v1 = v2 := by
  intro v1 v2 hn1 hn2 heq
  obtain ⟨st1, d1⟩ := v1
  obtain ⟨st2, d2⟩ := v2
  rw [serializeView, serializeView] at heq
  obtain ⟨-, hst, hd⟩ := statChunk_peel cp cp st1 st2 _ _ hcp hcp heq
  rw [hst]
  clear heq
  cases d1 with
  | noDir =>
    cases d2 with
    | noDir => rfl
    | missing =>
      exfalso
      rw [String.data_append] at hd
      simp at hd
    | files l2 =>
      exfalso
      rw [String.data_append] at hd
      simp at hd
  | missing =>
    cases d2 with
    | noDir =>
      exfalso
      rw [String.data_append] at hd
      simp at hd
    | missing => rfl
    | files l2 =>
      exfalso
      obtain ⟨hpre, hrest⟩ := sepSplit nulChar _ _ _ _
        (dirTag_nulFree td htd) (dirTag_nulFree td htd) hd
      cases l2 with
      | nil =>
        rw [serializeFiles] at hrest
        simp at hrest
      | cons q u =>
        obtain ⟨nm2, st2'⟩ := q
        rw [serializeFiles] at hrest
        obtain ⟨tt, ht⟩ := statChunk_head (td ++ "/" ++ nm2) st2'
        rw [ht] at hrest
        simp at hrest
  | files l1 =>
    cases d2 with
    | noDir =>
      exfalso
      rw [String.data_append] at hd
      simp at hd
    | missing =>
      exfalso
      obtain ⟨hpre, hrest⟩ := sepSplit nulChar _ _ _ _
        (dirTag_nulFree td htd) (dirTag_nulFree td htd) hd
      cases l1 with
      | nil =>
        rw [serializeFiles] at hrest
        simp at hrest
      | cons q u =>
        obtain ⟨nm1, st1'⟩ := q
        rw [serializeFiles] at hrest
        obtain ⟨tt, ht⟩ := statChunk_head (td ++ "/" ++ nm1) st1'
        rw [ht] at hrest
        simp at hrest
    | files l2 =>
      obtain ⟨hpre, hrest⟩ := sepSplit nulChar _ _ _ _
        (dirTag_nulFree td htd) (dirTag_nulFree td htd) hd
      have hl : l1 = l2 := by
        apply serializeFiles_inj td htd l1 l2 ?_ ?_ hrest
        · simpa [viewNamesNulFree] using hn1
        · simpa [viewNamesNulFree] using hn2
      rw [hl]

/-- The per-name chunk loop is the serialization of the per-name view. -/
theorem dirFilesChunks_eq_view (dir : String) (entries : List TmplDirEntry) :
    ∀ names : List String,
      dirFilesChunks dir entries names =
        (dirFilesView dir entries names).map (serializeFiles dir) := by
  intro names
  induction names with
  | nil => rfl
  | cons nm rest ih =>
    rw [dirFilesChunks, dirFilesView]
    cases statForName entries nm with
    | error e => rfl
    | ok st =>
      rw [ih]
      cases dirFilesView dir entries rest with
      | error e => rfl
      | ok l => rfl

/-- The fingerprint is exactly the serialization of its informational
inputs. -/
theorem fingerprint_eq_view (cp td : String) (fs : FpFS) :
    fingerprint cp td fs = (fpView cp td fs).map (serializeView cp (goTrimSpace td)) := by
  obtain ⟨cs, cc, dirSt⟩ := fs
  cases cs with
  | error e => rfl
  | ok st =>
    rw [fingerprint, fpView]
    by_cases h : goTrimSpace td = ""
    · simp [h, Except.map, serializeView]
    · cases dirSt with
      | failure e => simp [h, Except.map]
      | missing => simp [h, Except.map, serializeView]
      | present entries =>
        simp only [h, if_neg h]
        rw [dirFilesChunks_eq_view]
        cases hv : dirFilesView (goTrimSpace td) entries
            (sortStrings (tmplFileNames entries)) with
        | error e => simp [hv, Except.map]
        | ok l => simp [hv, Except.map, serializeView]

/-- Stripping contents preserves every entry's stat lookup. -/
theorem statForName_strip (entries : List TmplDirEntry) (nm : String) :
    statForName (entries.map stripEntryContent) nm = statForName entries nm := by
  induction entries with
  | nil => rfl
  | cons e rest ih =>
    rw [List.map_cons, statForName, statForName]
    by_cases h : (e.name == nm) = true
    · simp [stripEntryContent, h]
    · simp [stripEntryContent, eq_false_of_ne_true h, ih]

/-- Stripping contents preserves the kept `.tmpl` names. -/
theorem tmplFileNames_strip (entries : List TmplDirEntry) :
    tmplFileNames (entries.map stripEntryContent) = tmplFileNames entries := by
  rw [tmplFileNames, tmplFileNames]
  induction entries with
  | nil => rfl
  | cons e rest ih =>
    rw [List.map_cons, List.filter_cons, List.filter_cons]
    by_cases h : (!e.isDir && hasTmplExt e.name) = true
    · have hs : (!(stripEntryContent e).isDir && hasTmplExt (stripEntryContent e).name) = true := h
      rw [if_pos hs, if_pos h, List.map_cons, List.map_cons, ih]
      rfl
    · have hs : (!(stripEntryContent e).isDir && hasTmplExt (stripEntryContent e).name) = false :=
        eq_false_of_ne_true h
      rw [if_neg (by simp [hs]), if_neg (by simp [eq_false_of_ne_true h]), ih]

/-- The chunk loop ignores entry contents. -/
theorem dirFilesChunks_strip (dir : String) (entries : List TmplDirEntry) :
    ∀ names, dirFilesChunks dir (entries.map stripEntryContent) names =
      dirFilesChunks dir entries names := by
  intro names
  induction names with
  | nil => rfl
  | cons nm rest ih =>
    rw [dirFilesChunks, dirFilesChunks, statForName_strip, ih]

/-- The fingerprint never reads file contents: it is invariant under
erasing every content byte from the filesystem snapshot. -/
theorem fingerprint_strip (cp td : String) (fs : FpFS) :
    fingerprint cp td (stripFpContent fs) = fingerprint cp td fs := by
  obtain ⟨cs, cc, dirSt⟩ := fs
  cases dirSt with
  | missing => rfl
  | failure e => rfl
  | present entries =>
    show fingerprint cp td ⟨cs, "", .present (entries.map stripEntryContent)⟩ =
      fingerprint cp td ⟨cs, cc, .present entries⟩
    rw [fingerprint, fingerprint]
    cases cs with
    | error e => rfl
    | ok st =>
      by_cases h : goTrimSpace td = ""
      · simp [h]
      · simp [h, tmplFileNames_strip, dirFilesChunks_strip]

/-- A successful mapped `Except` comes from a successful inner value. -/
theorem exceptMapOk {α β : Type} (f : α → β) (x : Except String α) (b : β)
    (h : x.map f = .ok b) : ∃ a, x = .ok a ∧ b = f a := by
  cases x with
  | error e => simp [Except.map] at h
  | ok a => exact ⟨a, rfl, by simpa [Except.map] using h.symm⟩

/-- Membership in a sorted insertion. -/
theorem mem_insertSorted (a nm : String) : ∀ l, a ∈ insertSorted nm l ↔ a = nm ∨ a ∈ l := by
  intro l
  induction l with
  | nil => simp [insertSorted]
  | cons x xs ih =>
    rw [insertSorted]
    by_cases h : nm ≤ x
    · simp [h]
    · rw [if_neg h]
      simp [ih]
      tauto

/-- Sorting preserves membership. -/
theorem mem_sortStrings (a : String) (l : List String) : a ∈ sortStrings l ↔ a ∈ l := by
  induction l with
  | nil => simp [sortStrings]
  | cons x xs ih =>
    rw [sortStrings, List.foldr_cons, mem_insertSorted]
    rw [sortStrings] at ih
    simp [ih]

/-- Kept template names come from directory entries. -/
theorem tmplFileNames_mem (entries : List TmplDirEntry) (nm : String)
    (h : nm ∈ tmplFileNames entries) : ∃ e ∈ entries, e.name = nm := by
  rw [tmplFileNames] at h
  simp at h
  obtain ⟨e, ⟨he, -⟩, hname⟩ := h
  exact ⟨e, he, hname⟩

/-- Names in a successful per-name view come from the name list. -/
theorem dirFilesView_names (dir : String) (entries : List TmplDirEntry) :
    ∀ names l, dirFilesView dir entries names = .ok l →
      ∀ p ∈ l, p.1 ∈ names := by
  intro names
  induction names with
  | nil =>
    intro l hl p hp
    rw [dirFilesView] at hl
    simp at hl
    subst hl
    cases hp
  | cons nm rest ih =>
    intro l hl p hp
    rw [dirFilesView] at hl
    cases hst : statForName entries nm with
    | error e => rw [hst] at hl; simp at hl
    | ok st =>
      rw [hst] at hl
      cases hrec : dirFilesView dir entries rest with
      | error e => rw [hrec] at hl; simp [Except.map] at hl
      | ok tail =>
        rw [hrec] at hl
        simp [Except.map] at hl
        subst hl
        rcases List.mem_cons.mp hp with hp | hp
        · rw [hp]
          exact List.mem_cons_self _ _
        · exact List.mem_cons_of_mem _ (ih tail hrec p hp)

/-- A successful view over a NUL-free filesystem has NUL-free names. -/
theorem fpView_namesNulFree (cp td : String) (fs : FpFS) (v : FpView)
    (hnf : fsNamesNulFree fs = true) (hv : fpView cp td fs = .ok v) :
    viewNamesNulFree v := by
  obtain ⟨cs, cc, dirSt⟩ := fs
  rw [fpView] at hv
  cases cs with
  | error e => simp at hv
  | ok st =>
    by_cases htd : goTrimSpace td = ""
    · simp only [htd, if_pos rfl] at hv
      simp at hv
      rw [← hv]
      trivial
    · simp only [if_neg htd] at hv
      cases dirSt with
      | failure e => simp at hv
      | missing =>
        simp at hv
        rw [← hv]
        trivial
      | present entries =>
        cases hl : dirFilesView (goTrimSpace td) entries
            (sortStrings (tmplFileNames entries)) with
        | error e => simp [hl] at hv
        | ok l =>
          simp [hl] at hv
          rw [← hv]
          show ∀ p ∈ l, nulChar ∉ p.1.data
          intro p hp
          have hnm := dirFilesView_names _ _ _ l hl p hp
          have hmem := (mem_sortStrings _ _).mp hnm
          obtain ⟨e, he, hename⟩ := tmplFileNames_mem entries _ hmem
          rw [fsNamesNulFree] at hnf
          simp at hnf
          rw [← hename]
          exact hnf e he

/-- The directory dimension of a successful view over a missing
directory is the missing marker. -/
theorem fpView_dir_missing (cp td : String) (fs : FpFS) (v : FpView)
    (htd : goTrimSpace td ≠ "") (hm : fs.tplDir = .missing)
    (hv : fpView cp td fs = .ok v) : v.dir = .missing := by
  obtain ⟨cs, cc, dirSt⟩ := fs
  simp only at hm
  subst hm
  rw [fpView] at hv
  cases cs with
  | error e => simp at hv
  | ok st =>
    simp only [if_neg htd] at hv
    simp at hv
    rw [← hv]

/-- The directory dimension of a successful view over a present
directory is a file list. -/
theorem fpView_dir_files (cp td : String) (fs : FpFS) (v : FpView)
    (es : List TmplDirEntry)
    (htd : goTrimSpace td ≠ "") (hm : fs.tplDir = .present es)
    (hv : fpView cp td fs = .ok v) : ∃ l, v.dir = .files l := by
  obtain ⟨cs, cc, dirSt⟩ := fs
  simp only at hm
  subst hm
  rw [fpView] at hv
  cases cs with
  | error e => simp at hv
  | ok st =>
    simp only [if_neg htd] at hv
    cases hl : dirFilesView (goTrimSpace td) es (sortStrings (tmplFileNames es)) with
    | error e => simp [hl] at hv
    | ok l =>
      simp [hl] at hv
      rw [← hv]
      exact ⟨l, rfl⟩

/-- C3: the reload fingerprint is computed from file metadata only — it
is invariant under erasing every file content — and, at the level of the
byte sequence fed to the SHA-256 digest, two fingerprints are equal if
and only if none of its informational inputs (the configuration file's
size and mtime, plus the sorted `.tmpl` names with their sizes and mtimes
or the explicit missing marker) changed; in particular a
configured-but-deleted template directory fingerprints differently from
the same directory with a file present. -/
theorem fingerprintClaim :
    (∀ cp td fs1 fs2, stripFpContent fs1 = stripFpContent fs2 →
      fingerprint cp td fs1 = fingerprint cp td fs2) ∧
    (∀ cp td fs1 fs2 i1 i2,
      nulChar ∉ cp.data → nulChar ∉ (goTrimSpace td).data →
      fsNamesNulFree fs1 = true → fsNamesNulFree fs2 = true →
      fingerprint cp td fs1 = .ok i1 → fingerprint cp td fs2 = .ok i2 →
      (i1 = i2 ↔ fpView cp td fs1 = fpView cp td fs2)) ∧
    (∀ cp td fs1 fs2 i1 i2 es,
      nulChar ∉ cp.data → nulChar ∉ (goTrimSpace td).data →
      fsNamesNulFree fs1 = true → fsNamesNulFree fs2 = true →
      goTrimSpace td ≠ "" →
      fs1.tplDir = .missing → fs2.tplDir = .present es →
      fingerprint cp td fs1 = .ok i1 → fingerprint cp td fs2 = .ok i2 →
      i1 ≠ i2) := by
  have hiff : ∀ cp td fs1 fs2 i1 i2,
      nulChar ∉ cp.data → nulChar ∉ (goTrimSpace td).data →
      fsNamesNulFree fs1 = true → fsNamesNulFree fs2 = true →
      fingerprint cp td fs1 = .ok i1 → fingerprint cp td fs2 = .ok i2 →
      (i1 = i2 ↔ fpView cp td fs1 = fpView cp td fs2) := by
    intro cp td fs1 fs2 i1 i2 hcp htd hn1 hn2 h1 h2
    rw [fingerprint_eq_view] at h1 h2
    obtain ⟨v1, hv1, hi1⟩ := exceptMapOk _ _ _ h1
    obtain ⟨v2, hv2, hi2⟩ := exceptMapOk _ _ _ h2
    constructor
    · intro hi
      rw [hv1, hv2]
      have hveq : v1 = v2 := by
        apply serializeView_inj cp (goTrimSpace td) hcp htd v1 v2
          (fpView_namesNulFree cp td fs1 v1 hn1 hv1)
          (fpView_namesNulFree cp td fs2 v2 hn2 hv2)
        rw [← hi1, ← hi2, hi]
      rw [hveq]
    · intro hveq
      rw [hv1, hv2] at hveq
      simp at hveq
      rw [hi1, hi2, hveq]
  refine ⟨?_, hiff, ?_⟩
  · intro cp td fs1 fs2 h
    rw [← fingerprint_strip cp td fs1, ← fingerprint_strip cp td fs2, h]
  · intro cp td fs1 fs2 i1 i2 es hcp htd hn1 hn2 htdne hm hp h1 h2 hContra
    have hviews := (hiff cp td fs1 fs2 i1 i2 hcp htd hn1 hn2 h1 h2).mp hContra
    rw [fingerprint_eq_view] at h1 h2
    obtain ⟨v1, hv1, -⟩ := exceptMapOk _ _ _ h1
    obtain ⟨v2, hv2, -⟩ := exceptMapOk _ _ _ h2
    rw [hv1, hv2] at hviews
    simp at hviews
    have hd1 : v1.dir = .missing := fpView_dir_missing cp td fs1 v1 htdne hm hv1
    obtain ⟨l, hd2⟩ := fpView_dir_files cp td fs2 v2 es htdne hp hv2
    rw [hviews, hd2] at hd1
    cases hd1

/-- Witness for the C3 theorem: the missing directory and the directory
with one file produce different digest preimages. -/
theorem fingerprintClaimWitness :
    sampleFpMissingBytes ≠ sampleFpPresentBytes :=
  fingerprintClaim.2.2 "c.yaml" "tpl" sampleFpFS sampleFpFSPresent
    sampleFpMissingBytes sampleFpPresentBytes [sampleTmplEntry]
    (by decide) (by decide) (by decide) (by decide) (by decide)
    (by decide) (by decide) (by decide) (by decide)

end PDTH
